import Mathlib

/-!
# Verification of the RepoGPT hybrid retrieval engine

Shallow embedding of the SQL retrieval functions defined in
`server/database/phase2_schema.sql` (`hybrid_search_chunks`,
`hybrid_search_file_summaries`, `match_file_summaries`,
`match_code_chunks_in_files`, `match_code_chunks`), together with the
two-stage retriever and the cross-encoder reranking step described by the
system specification.

Modelling conventions:
* a table is a `List` of rows; `uuid` keys become `Nat` surrogates;
* the pgvector cosine-distance operator `<=>` is an explicit parameter
  `dist : E → E → ℚ` over an abstract embedding type `E` (for concrete
  instances we use rational vectors of unit norm, where cosine distance
  is exactly `1 -` the dot product);
* the `pg_trgm` `similarity` function is an explicit parameter
  `sim : String → String → Option ℚ`; `none` models an SQL `NULL`
  result, which the SQL wraps in `COALESCE(..., 0)`;
* `ORDER BY expr DESC LIMIT n` is modelled deterministically by an
  insertion sort on the sort key followed by `List.take n`; the
  underspecified SQL semantics (order of rows with equal sort keys is
  arbitrary) is captured separately by the relation `SqlOrderByLimit`,
  of which the deterministic sort is proved to be one admissible
  evaluation.
-/

namespace RepoGPT

/-- A row of the `code_chunks` table (base schema plus the phase-2
`chunk_type` / `chunk_name` columns), with an abstract embedding type. -/
structure Chunk (E : Type) where
  id : Nat
  repository_id : Nat
  file_path : String
  content : String
  start_line : Int
  end_line : Int
  chunk_type : String
  chunk_name : Option String
  embedding : E
deriving DecidableEq, Repr

/-- A row of the `file_summaries` table. -/
structure FileSummary (E : Type) where
  id : Nat
  repository_id : Nat
  file_path : String
  summary : String
  key_components : List String
  embedding : E
deriving DecidableEq, Repr

/-- The row type returned by `hybrid_search_chunks`. -/
structure HybridChunkRow where
  id : Nat
  content : String
  file_path : String
  start_line : Int
  end_line : Int
  chunk_type : String
  chunk_name : Option String
  vector_score : ℚ
  keyword_score : ℚ
  combined_score : ℚ
deriving DecidableEq, Repr

/-- The row type returned by `hybrid_search_file_summaries`. -/
structure HybridSummaryRow where
  id : Nat
  file_path : String
  summary : String
  key_components : List String
  vector_score : ℚ
  keyword_score : ℚ
  combined_score : ℚ
deriving DecidableEq, Repr

/-- The row type returned by `match_code_chunks` and
`match_code_chunks_in_files`. -/
structure MatchChunkRow where
  id : Nat
  content : String
  file_path : String
  start_line : Int
  end_line : Int
  similarity : ℚ
deriving DecidableEq, Repr

/-- The row type returned by `match_file_summaries`. -/
structure MatchSummaryRow where
  id : Nat
  file_path : String
  summary : String
  key_components : List String
  similarity : ℚ
deriving DecidableEq, Repr

/-! ## Deterministic model of `ORDER BY` -/

/-- Insert `x` into a list sorted descending by `key`: walk past the
elements with strictly larger key and place `x` in front of the rest. -/
def insertByKeyDesc (key : α → ℚ) (x : α) : List α → List α
  | [] => [x]
  | y :: ys => if key x < key y then y :: insertByKeyDesc key x ys else x :: y :: ys

/-- Insertion sort, descending by `key`: the deterministic model of
`ORDER BY key DESC`. -/
def sortByKeyDesc (key : α → ℚ) : List α → List α
  | [] => []
  | x :: xs => insertByKeyDesc key x (sortByKeyDesc key xs)

/-- `ORDER BY key ASC`, expressed through the descending sort on the
negated key (the comparisons coincide exactly). -/
def sortByKeyAsc (key : α → ℚ) (l : List α) : List α :=
  sortByKeyDesc (fun a => -key a) l

/-! ## The five SQL search functions -/

/-- Default `keyword_weight` declared by both hybrid search functions. -/
def defaultKeywordWeight : ℚ := 3 / 10

/-- Default `vector_weight` declared by both hybrid search functions. -/
def defaultVectorWeight : ℚ := 7 / 10

/-- The `vector_score` column: `1 - (embedding <=> query_embedding)`. -/
def chunkVectorScore (dist : E → E → ℚ) (query_embedding : E) (c : Chunk E) : ℚ :=
  1 - dist c.embedding query_embedding

/-- The `keyword_score` column:
`COALESCE(similarity(content, query_text), 0)`. -/
def chunkKeywordScore (sim : String → String → Option ℚ) (query_text : String)
    (c : Chunk E) : ℚ :=
  (sim c.content query_text).getD 0

/-- The `combined_score` column of `hybrid_search_chunks`. -/
def chunkCombinedScore (dist : E → E → ℚ) (sim : String → String → Option ℚ)
    (query_embedding : E) (query_text : String)
    (keyword_weight vector_weight : ℚ) (c : Chunk E) : ℚ :=
  vector_weight * (1 - dist c.embedding query_embedding) +
    keyword_weight * (sim c.content query_text).getD 0

/-- The `WHERE (repo_id IS NULL OR c.repository_id = repo_id)` predicate. -/
def chunkRepoPred (repo_id : Option Nat) (c : Chunk E) : Bool :=
  repo_id.isNone || some c.repository_id == repo_id

/-- The output row built by the `SELECT` list of `hybrid_search_chunks`. -/
def hybridChunkRowOf (dist : E → E → ℚ) (sim : String → String → Option ℚ)
    (query_embedding : E) (query_text : String)
    (keyword_weight vector_weight : ℚ) (c : Chunk E) : HybridChunkRow :=
  { id := c.id
    content := c.content
    file_path := c.file_path
    start_line := c.start_line
    end_line := c.end_line
    chunk_type := c.chunk_type
    chunk_name := c.chunk_name
    vector_score := chunkVectorScore dist query_embedding c
    keyword_score := chunkKeywordScore sim query_text c
    combined_score :=
      chunkCombinedScore dist sim query_embedding query_text keyword_weight vector_weight c }

/-- `hybrid_search_chunks` (phase2_schema.sql lines 21–64): select the
chunks in scope, compute the three scores per row, order by
`combined_score DESC`, and return the first `match_count` rows. -/
def hybrid_search_chunks (dist : E → E → ℚ) (sim : String → String → Option ℚ)
    (code_chunks : List (Chunk E)) (query_embedding : E) (query_text : String)
    (keyword_weight vector_weight : ℚ) (match_count : Nat)
    (repo_id : Option Nat) : List HybridChunkRow :=
  (((sortByKeyDesc
        (chunkCombinedScore dist sim query_embedding query_text keyword_weight vector_weight)
        (code_chunks.filter (chunkRepoPred repo_id))).take match_count).map
    (hybridChunkRowOf dist sim query_embedding query_text keyword_weight vector_weight))

/-- The `vector_score` column of `hybrid_search_file_summaries`. -/
def summaryVectorScore (dist : E → E → ℚ) (query_embedding : E) (f : FileSummary E) : ℚ :=
  1 - dist f.embedding query_embedding

/-- The `keyword_score` column of `hybrid_search_file_summaries`. -/
def summaryKeywordScore (sim : String → String → Option ℚ) (query_text : String)
    (f : FileSummary E) : ℚ :=
  (sim f.summary query_text).getD 0

/-- The `combined_score` column of `hybrid_search_file_summaries`. -/
def summaryCombinedScore (dist : E → E → ℚ) (sim : String → String → Option ℚ)
    (query_embedding : E) (query_text : String)
    (keyword_weight vector_weight : ℚ) (f : FileSummary E) : ℚ :=
  vector_weight * (1 - dist f.embedding query_embedding) +
    keyword_weight * (sim f.summary query_text).getD 0

/-- The `WHERE (repo_id IS NULL OR f.repository_id = repo_id)` predicate. -/
def summaryRepoPred (repo_id : Option Nat) (f : FileSummary E) : Bool :=
  repo_id.isNone || some f.repository_id == repo_id

/-- The output row built by the `SELECT` list of
`hybrid_search_file_summaries`. -/
def hybridSummaryRowOf (dist : E → E → ℚ) (sim : String → String → Option ℚ)
    (query_embedding : E) (query_text : String)
    (keyword_weight vector_weight : ℚ) (f : FileSummary E) : HybridSummaryRow :=
  { id := f.id
    file_path := f.file_path
    summary := f.summary
    key_components := f.key_components
    vector_score := summaryVectorScore dist query_embedding f
    keyword_score := summaryKeywordScore sim query_text f
    combined_score :=
      summaryCombinedScore dist sim query_embedding query_text keyword_weight vector_weight f }

/-- `hybrid_search_file_summaries` (phase2_schema.sql lines 67–104). -/
def hybrid_search_file_summaries (dist : E → E → ℚ) (sim : String → String → Option ℚ)
    (file_summaries : List (FileSummary E)) (query_embedding : E) (query_text : String)
    (keyword_weight vector_weight : ℚ) (match_count : Nat)
    (repo_id : Option Nat) : List HybridSummaryRow :=
  (((sortByKeyDesc
        (summaryCombinedScore dist sim query_embedding query_text keyword_weight vector_weight)
        (file_summaries.filter (summaryRepoPred repo_id))).take match_count).map
    (hybridSummaryRowOf dist sim query_embedding query_text keyword_weight vector_weight))

/-- The output row built by the `SELECT` list of `match_code_chunks` /
`match_code_chunks_in_files`. -/
def matchChunkRowOf (dist : E → E → ℚ) (query_embedding : E) (c : Chunk E) : MatchChunkRow :=
  { id := c.id
    content := c.content
    file_path := c.file_path
    start_line := c.start_line
    end_line := c.end_line
    similarity := 1 - dist c.embedding query_embedding }

/-- `match_code_chunks` (phase2_schema.sql lines 192–223): scope to
`repo_id`, keep rows with `1 - (embedding <=> query) > match_threshold`,
order by `embedding <=> query` ascending, return the first
`match_count` rows. -/
def match_code_chunks (dist : E → E → ℚ) (code_chunks : List (Chunk E))
    (query_embedding : E) (match_threshold : ℚ) (match_count : Nat)
    (repo_id : Nat) : List MatchChunkRow :=
  (((sortByKeyAsc (fun c => dist c.embedding query_embedding)
        (code_chunks.filter (fun c =>
          c.repository_id == repo_id &&
            decide (match_threshold < 1 - dist c.embedding query_embedding)))).take
      match_count).map (matchChunkRowOf dist query_embedding))

/-- `match_code_chunks_in_files` (phase2_schema.sql lines 156–189): like
`match_code_chunks` with the extra `file_path = ANY(file_paths)` filter. -/
def match_code_chunks_in_files (dist : E → E → ℚ) (code_chunks : List (Chunk E))
    (query_embedding : E) (match_threshold : ℚ) (match_count : Nat)
    (repo_id : Nat) (file_paths : List String) : List MatchChunkRow :=
  (((sortByKeyAsc (fun c => dist c.embedding query_embedding)
        (code_chunks.filter (fun c =>
          c.repository_id == repo_id && file_paths.contains c.file_path &&
            decide (match_threshold < 1 - dist c.embedding query_embedding)))).take
      match_count).map (matchChunkRowOf dist query_embedding))

/-- The output row built by the `SELECT` list of `match_file_summaries`. -/
def matchSummaryRowOf (dist : E → E → ℚ) (query_embedding : E)
    (f : FileSummary E) : MatchSummaryRow :=
  { id := f.id
    file_path := f.file_path
    summary := f.summary
    key_components := f.key_components
    similarity := 1 - dist f.embedding query_embedding }

/-- `match_file_summaries` (phase2_schema.sql lines 124–153), stage 1 of
hierarchical retrieval. -/
def match_file_summaries (dist : E → E → ℚ) (file_summaries : List (FileSummary E))
    (query_embedding : E) (match_threshold : ℚ) (match_count : Nat)
    (repo_id : Nat) : List MatchSummaryRow :=
  (((sortByKeyAsc (fun f => dist f.embedding query_embedding)
        (file_summaries.filter (fun f =>
          f.repository_id == repo_id &&
            decide (match_threshold < 1 - dist f.embedding query_embedding)))).take
      match_count).map (matchSummaryRowOf dist query_embedding))

/-! ## Relational semantics of `ORDER BY ... LIMIT`

PostgreSQL leaves the relative order of rows with equal sort keys
unspecified, and `LIMIT` then keeps a prefix of whichever order the
engine produced.  `SqlOrderByLimit` captures exactly the admissible
outputs; the deterministic `sortByKeyDesc` model is one of them. -/

/-- The list is sorted descending by `key` (equal keys in any order). -/
def SortedByKeyDesc (key : α → ℚ) (l : List α) : Prop :=
  l.Pairwise (fun a b => key b ≤ key a)

/-- `output` is an admissible result of `ORDER BY key DESC LIMIT limit`
applied to the bag of rows `input`. -/
def SqlOrderByLimit (key : α → ℚ) (limit : Nat) (input output : List α) : Prop :=
  ∃ s : List α, s.Perm input ∧ SortedByKeyDesc key s ∧ output = s.take limit

/-- `output` is an admissible result of the `hybrid_search_chunks` query
under the underspecified SQL ordering semantics. -/
def SqlHybridChunksOutput (dist : E → E → ℚ) (sim : String → String → Option ℚ)
    (code_chunks : List (Chunk E)) (query_embedding : E) (query_text : String)
    (keyword_weight vector_weight : ℚ) (match_count : Nat)
    (repo_id : Option Nat) (output : List HybridChunkRow) : Prop :=
  ∃ t : List (Chunk E),
    SqlOrderByLimit
      (chunkCombinedScore dist sim query_embedding query_text keyword_weight vector_weight)
      match_count (code_chunks.filter (chunkRepoPred repo_id)) t ∧
    output = t.map
      (hybridChunkRowOf dist sim query_embedding query_text keyword_weight vector_weight)

/-- `output` is an admissible result of the `match_code_chunks` query
under the underspecified SQL ordering semantics (`ORDER BY embedding <=>
query_embedding` ascending is descending order on the negated
distance). -/
def SqlMatchChunksOutput (dist : E → E → ℚ) (code_chunks : List (Chunk E))
    (query_embedding : E) (match_threshold : ℚ) (match_count : Nat)
    (repo_id : Nat) (output : List MatchChunkRow) : Prop :=
  ∃ t : List (Chunk E),
    SqlOrderByLimit (fun c => -dist c.embedding query_embedding) match_count
      (code_chunks.filter (fun c =>
        c.repository_id == repo_id &&
          decide (match_threshold < 1 - dist c.embedding query_embedding))) t ∧
    output = t.map (matchChunkRowOf dist query_embedding)

/-- `output` is an admissible result of the `match_file_summaries` query
under the underspecified SQL ordering semantics. -/
def SqlMatchSummariesOutput (dist : E → E → ℚ) (file_summaries : List (FileSummary E))
    (query_embedding : E) (match_threshold : ℚ) (match_count : Nat)
    (repo_id : Nat) (output : List MatchSummaryRow) : Prop :=
  ∃ t : List (FileSummary E),
    SqlOrderByLimit (fun f => -dist f.embedding query_embedding) match_count
      (file_summaries.filter (fun f =>
        f.repository_id == repo_id &&
          decide (match_threshold < 1 - dist f.embedding query_embedding))) t ∧
    output = t.map (matchSummaryRowOf dist query_embedding)

/-! ## The two-stage retriever and the reranker

The FastAPI orchestration (`server/app`) is not among the provided
source files; the retriever and reranker below are therefore modelled
from the specification (§4.4, §4.5) on top of the SQL functions above. -/

/-- Deduplication by chunk identifier, keeping the first occurrence
(§4.4 step 4, "a no-op safeguard"). -/
def dedupByIdAux (seen : List Nat) : List MatchChunkRow → List MatchChunkRow
  | [] => []
  | r :: rs =>
    if seen.contains r.id then dedupByIdAux seen rs
    else r :: dedupByIdAux (r.id :: seen) rs

/-- Deduplicate a result list by chunk identifier. -/
def dedupById (l : List MatchChunkRow) : List MatchChunkRow :=
  dedupByIdAux [] l

/-- Modelled from the spec: the Two-Stage Retriever of §4.4 (its Python
implementation under `server/app` is not among the provided sources).
Stage 1 ranks file summaries to pick a candidate file set `F`; stage 2
ranks chunks restricted to `F`, or over the whole repository when `F`
is empty (the documented fallback); the result is deduplicated by
chunk identifier. -/
def retrieve (dist : E → E → ℚ) (file_summaries : List (FileSummary E))
    (code_chunks : List (Chunk E)) (query_embedding : E)
    (file_threshold : ℚ) (file_cap : Nat)
    (chunk_threshold : ℚ) (chunk_cap : Nat) (repo_id : Nat) : List MatchChunkRow :=
  let stage1 :=
    match_file_summaries dist file_summaries query_embedding file_threshold file_cap repo_id
  let F := stage1.map (fun r => r.file_path)
  let stage2 :=
    if F.isEmpty then
      match_code_chunks dist code_chunks query_embedding chunk_threshold chunk_cap repo_id
    else
      match_code_chunks_in_files dist code_chunks query_embedding chunk_threshold chunk_cap
        repo_id F
  dedupById stage2

/-- Modelled from the spec: the fail-soft reranking step of §4.5 (its
Python implementation under `server/app` is not among the provided
sources).  The cross-encoder is an external call that either returns a
reordered list or fails with an error; on failure the stage-2 order is
returned unchanged. -/
def applyRerank (rerank : String → List MatchChunkRow → Except String (List MatchChunkRow))
    (query_text : String) (passages : List MatchChunkRow) : List MatchChunkRow :=
  match rerank query_text passages with
  | Except.error _ => passages
  | Except.ok reordered => reordered

/-- Modelled from the spec: the full retrieval pipeline — two-stage
retrieval followed by cross-encoder reranking (§2 data flow). -/
def retrieveAndRerank (dist : E → E → ℚ)
    (rerank : String → List MatchChunkRow → Except String (List MatchChunkRow))
    (file_summaries : List (FileSummary E)) (code_chunks : List (Chunk E))
    (query_text : String) (query_embedding : E)
    (file_threshold : ℚ) (file_cap : Nat)
    (chunk_threshold : ℚ) (chunk_cap : Nat) (repo_id : Nat) : List MatchChunkRow :=
  applyRerank rerank query_text
    (retrieve dist file_summaries code_chunks query_embedding file_threshold file_cap
      chunk_threshold chunk_cap repo_id)

/-! ## A concrete embedding instance

For concrete witnesses we instantiate the abstract embedding type with
rational vectors of unit norm, on which the pgvector cosine distance
`<=>` equals `1 -` the dot product (the ambient dimension — 384 for the
deployed model — plays no role in any of the properties below). -/

/-- Dot product of rational vectors. -/
def dotp : List ℚ → List ℚ → ℚ
  | a :: as, b :: bs => a * b + dotp as bs
  | _, _ => 0

/-- Cosine distance restricted to unit-norm vectors: `1 - ⟨a, b⟩`. -/
def cosDistUnit (a b : List ℚ) : ℚ := 1 - dotp a b

/-- The unit vector `(q, 0)` with `q = ±1`. -/
def unitVec (q : ℚ) : List ℚ := [q, 0]

/-- A trigram similarity returning `0` everywhere: the behaviour of
`pg_trgm` `similarity` when the query text shares no trigram with any
stored text (in particular, when the query text is empty). -/
def simNoOverlap : String → String → Option ℚ := fun _ _ => some 0

/-- Sample chunk: repository 10, aligned with the query vector. -/
def chunkA : Chunk (List ℚ) :=
  { id := 1, repository_id := 10, file_path := "a.py", content := "alpha",
    start_line := 1, end_line := 5, chunk_type := "code", chunk_name := none,
    embedding := unitVec 1 }

/-- Sample chunk: identical to `chunkA` except for its identifier, so
every score ties with `chunkA`'s. -/
def chunkB : Chunk (List ℚ) :=
  { id := 2, repository_id := 10, file_path := "b.py", content := "alpha",
    start_line := 1, end_line := 5, chunk_type := "code", chunk_name := none,
    embedding := unitVec 1 }

/-- Sample chunk: repository 20, opposed to the query vector `unitVec 1`
(cosine distance 2). -/
def chunkC : Chunk (List ℚ) :=
  { id := 3, repository_id := 20, file_path := "c.py", content := "gamma",
    start_line := 2, end_line := 9, chunk_type := "function", chunk_name := some "g",
    embedding := unitVec (-1) }

/-- Sample file summary in repository 10. -/
def summaryA : FileSummary (List ℚ) :=
  { id := 7, repository_id := 10, file_path := "a.py", summary := "module alpha",
    key_components := ["alpha"], embedding := unitVec 1 }

/-- Sample chunk: repository 10, unit embedding `(4/5, 3/5)`, cosine
similarity `4/5` to the query vector `unitVec 1`. -/
def chunkD : Chunk (List ℚ) :=
  { id := 4, repository_id := 10, file_path := "d.py", content := "delta",
    start_line := 3, end_line := 8, chunk_type := "class", chunk_name := some "D",
    embedding := [4/5, 3/5] }

/-- Sample chunk: repository 10, unit embedding `(3/5, 4/5)`, cosine
similarity `3/5` to the query vector `unitVec 1`. -/
def chunkE : Chunk (List ℚ) :=
  { id := 5, repository_id := 10, file_path := "e.py", content := "epsilon",
    start_line := 4, end_line := 12, chunk_type := "code", chunk_name := none,
    embedding := [3/5, 4/5] }

/-! ## Helper lemmas about the deterministic sort -/

theorem insertByKeyDesc_perm (key : α → ℚ) (x : α) (l : List α) :
    (insertByKeyDesc key x l).Perm (x :: l) := by
  induction l with
  | nil => simp [insertByKeyDesc]
  | cons y ys ih =>
    by_cases h : key x < key y
    · simp only [insertByKeyDesc, if_pos h]
      exact (ih.cons y).trans (List.Perm.swap x y ys)
    · simp only [insertByKeyDesc, if_neg h]
      exact List.Perm.refl _

theorem sortByKeyDesc_perm (key : α → ℚ) (l : List α) :
    (sortByKeyDesc key l).Perm l := by
  induction l with
  | nil => simp [sortByKeyDesc]
  | cons x xs ih => exact (insertByKeyDesc_perm key x _).trans (ih.cons x)

theorem mem_sortByKeyDesc {key : α → ℚ} {l : List α} {a : α} :
    a ∈ sortByKeyDesc key l ↔ a ∈ l :=
  (sortByKeyDesc_perm key l).mem_iff

theorem sortedByKeyDesc_insert (key : α → ℚ) (x : α) {l : List α}
    (h : SortedByKeyDesc key l) :
    SortedByKeyDesc key (insertByKeyDesc key x l) := by
  unfold SortedByKeyDesc at h ⊢
  induction l with
  | nil => simp [insertByKeyDesc]
  | cons y ys ih =>
    rcases List.pairwise_cons.mp h with ⟨hy, hys⟩
    by_cases hxy : key x < key y
    · simp only [insertByKeyDesc, if_pos hxy]
      refine List.pairwise_cons.mpr ⟨?_, ih hys⟩
      intro b hb
      have hb' : b ∈ x :: ys := (insertByKeyDesc_perm key x ys).mem_iff.mp hb
      rcases List.mem_cons.mp hb' with rfl | hb2
      · exact le_of_lt hxy
      · exact hy b hb2
    · simp only [insertByKeyDesc, if_neg hxy]
      refine List.pairwise_cons.mpr ⟨?_, h⟩
      intro b hb
      rcases List.mem_cons.mp hb with rfl | hb
      · exact not_lt.mp hxy
      · exact (hy b hb).trans (not_lt.mp hxy)

theorem sortedByKeyDesc_sort (key : α → ℚ) (l : List α) :
    SortedByKeyDesc key (sortByKeyDesc key l) := by
  induction l with
  | nil => simp [sortByKeyDesc, SortedByKeyDesc]
  | cons x xs ih => exact sortedByKeyDesc_insert key x ih

theorem insertByKeyDesc_append_right (key : α → ℚ) (x : α) (A B : List α)
    (hB : ∀ b ∈ B, key b < key x) :
    insertByKeyDesc key x (A ++ B) = insertByKeyDesc key x A ++ B := by
  induction A with
  | nil =>
    cases B with
    | nil => rfl
    | cons b bs =>
      have : ¬ key x < key b := not_lt.mpr (le_of_lt (hB b (List.mem_cons_self b bs)))
      simp [insertByKeyDesc, if_neg this]
  | cons a A' ih =>
    simp only [List.cons_append, insertByKeyDesc]
    by_cases hxa : key x < key a
    · simp only [List.append_eq, if_pos hxa, ih, List.cons_append]
    · simp only [List.append_eq, if_neg hxa, List.cons_append]

theorem insertByKeyDesc_append_left (key : α → ℚ) (x : α) (A B : List α)
    (hA : ∀ a ∈ A, key x < key a) :
    insertByKeyDesc key x (A ++ B) = A ++ insertByKeyDesc key x B := by
  induction A with
  | nil => rfl
  | cons a A' ih =>
    have hxa : key x < key a := hA a (List.mem_cons_self a A')
    simp only [List.cons_append, insertByKeyDesc, if_pos hxa, List.append_eq]
    rw [ih (fun b hb => hA b (List.mem_cons_of_mem a hb))]

theorem sortByKeyDesc_filter_split (key : α → ℚ) (p : α → Bool) (l : List α)
    (h : ∀ x ∈ l, ∀ y ∈ l, p x = true → p y = false → key y < key x) :
    sortByKeyDesc key l =
      sortByKeyDesc key (l.filter p) ++ sortByKeyDesc key (l.filter (fun a => ! p a)) := by
  induction l with
  | nil => rfl
  | cons x xs ih =>
    have h' : ∀ a ∈ xs, ∀ b ∈ xs, p a = true → p b = false → key b < key a :=
      fun a ha b hb => h a (List.mem_cons_of_mem x ha) b (List.mem_cons_of_mem x hb)
    cases hp : p x with
    | true =>
      have step : insertByKeyDesc key x
            (sortByKeyDesc key (xs.filter p) ++ sortByKeyDesc key (xs.filter (fun a => ! p a)))
          = insertByKeyDesc key x (sortByKeyDesc key (xs.filter p)) ++
              sortByKeyDesc key (xs.filter (fun a => ! p a)) := by
        refine insertByKeyDesc_append_right key x _ _ ?_
        intro b hb
        have hb' := mem_sortByKeyDesc.mp hb
        rcases List.mem_filter.mp hb' with ⟨hbxs, hbp⟩
        have hbp' : p b = false := by
          cases hpb : p b
          · rfl
          · rw [hpb] at hbp; simp at hbp
        exact h x (List.mem_cons_self x xs) b (List.mem_cons_of_mem x hbxs) hp hbp'
      simp only [sortByKeyDesc, ih h', step, List.filter_cons, hp, if_pos]
      simp
    | false =>
      have step : insertByKeyDesc key x
            (sortByKeyDesc key (xs.filter p) ++ sortByKeyDesc key (xs.filter (fun a => ! p a)))
          = sortByKeyDesc key (xs.filter p) ++
              insertByKeyDesc key x (sortByKeyDesc key (xs.filter (fun a => ! p a))) := by
        refine insertByKeyDesc_append_left key x _ _ ?_
        intro a ha
        have ha' := mem_sortByKeyDesc.mp ha
        rcases List.mem_filter.mp ha' with ⟨haxs, hap⟩
        exact h a (List.mem_cons_of_mem x haxs) x (List.mem_cons_self x xs) hap hp
      simp only [sortByKeyDesc, ih h', step, List.filter_cons, hp]
      simp

theorem sorted_perm_eq_of_key_inj (key : α → ℚ) :
    ∀ {l1 l2 : List α}, l1.Perm l2 → SortedByKeyDesc key l1 → SortedByKeyDesc key l2 →
      (∀ x ∈ l1, ∀ y ∈ l1, key x = key y → x = y) → l1 = l2 := by
  intro l1
  induction l1 with
  | nil =>
    intro l2 hp _ _ _
    exact (hp.symm.eq_nil).symm
  | cons x t1 ih =>
    intro l2 hp hs1 hs2 hinj
    cases l2 with
    | nil => cases (List.cons_ne_nil x t1) hp.eq_nil
    | cons y t2 =>
      unfold SortedByKeyDesc at hs1 hs2
      have hx2 : x ∈ y :: t2 := hp.mem_iff.mp (List.mem_cons_self x t1)
      have hy1 : y ∈ x :: t1 := hp.symm.mem_iff.mp (List.mem_cons_self y t2)
      have hkxy : key x = key y := by
        rcases List.mem_cons.mp hx2 with h | h
        · rw [h]
        · rcases List.mem_cons.mp hy1 with h' | h'
          · rw [h']
          · exact le_antisymm ((List.pairwise_cons.mp hs2).1 x h)
              ((List.pairwise_cons.mp hs1).1 y h')
      have hxy : x = y := hinj x (List.mem_cons_self x t1) y hy1 hkxy
      subst hxy
      have hp' : t1.Perm t2 := hp.cons_inv
      have ht : t1 = t2 :=
        ih hp' (List.pairwise_cons.mp hs1).2 (List.pairwise_cons.mp hs2).2
          (fun a ha b hb => hinj a (List.mem_cons_of_mem x ha) b (List.mem_cons_of_mem x hb))
      rw [ht]

/-! ## Helper lemmas about deduplication -/

theorem dedupByIdAux_sublist (seen : List Nat) (l : List MatchChunkRow) :
    (dedupByIdAux seen l).Sublist l := by
  induction l generalizing seen with
  | nil => simp [dedupByIdAux]
  | cons r rs ih =>
    by_cases h : seen.contains r.id
    · simp only [dedupByIdAux, if_pos h]
      exact (ih seen).cons r
    · simp only [dedupByIdAux, if_neg h]
      exact (ih (r.id :: seen)).cons₂ r

theorem dedupById_sublist (l : List MatchChunkRow) : (dedupById l).Sublist l :=
  dedupByIdAux_sublist [] l

/-! ## Generic lemmas about the `sort / take / map` query shape -/

theorem mem_take_sort_map {key : α → ℚ} {f : α → β} {l : List α} {n : Nat} {b : β}
    (h : b ∈ ((sortByKeyDesc key l).take n).map f) : ∃ a ∈ l, b = f a := by
  rcases List.mem_map.mp h with ⟨a, ha, rfl⟩
  exact ⟨a, mem_sortByKeyDesc.mp (List.mem_of_mem_take ha), rfl⟩

theorem length_take_sort_map_le (key : α → ℚ) (f : α → β) (l : List α) (n : Nat) :
    (((sortByKeyDesc key l).take n).map f).length ≤ n := by
  rw [List.length_map, List.length_take]
  exact min_le_left _ _

theorem pairwise_take_sort_map (key : α → ℚ) (f : α → β) (S : β → β → Prop)
    (l : List α) (n : Nat) (hf : ∀ a b, key b ≤ key a → S (f a) (f b)) :
    (((sortByKeyDesc key l).take n).map f).Pairwise S := by
  refine List.pairwise_map.mpr ?_
  refine List.Pairwise.imp ?_
    (List.Pairwise.sublist (List.take_sublist n _) (sortedByKeyDesc_sort key l))
  exact fun {a b} h => hf a b h

/-! ## Claim theorems -/

/-- C1: every candidate returned by a hybrid search over chunks or file
summaries satisfies `combined_score = vector_weight · vector_score +
keyword_weight · keyword_score`, where `vector_score` is `1 -` the cosine
distance between the stored embedding and the query embedding, and the
declared default weights are `vector_weight = 0.7`, `keyword_weight = 0.3`. -/
theorem C1_hybrid_combined_score {E : Type} (dist : E → E → ℚ)
    (sim : String → String → Option ℚ) (code_chunks : List (Chunk E))
    (file_summaries : List (FileSummary E)) (query_embedding : E) (query_text : String)
    (keyword_weight vector_weight : ℚ) (match_count : Nat) (repo_id : Option Nat) :
    (∀ r ∈ hybrid_search_chunks dist sim code_chunks query_embedding query_text
        keyword_weight vector_weight match_count repo_id,
      r.combined_score = vector_weight * r.vector_score + keyword_weight * r.keyword_score ∧
      ∃ c ∈ code_chunks, r.vector_score = 1 - dist c.embedding query_embedding) ∧
    (∀ r ∈ hybrid_search_file_summaries dist sim file_summaries query_embedding query_text
        keyword_weight vector_weight match_count repo_id,
      r.combined_score = vector_weight * r.vector_score + keyword_weight * r.keyword_score ∧
      ∃ f ∈ file_summaries, r.vector_score = 1 - dist f.embedding query_embedding) ∧
    defaultVectorWeight = 7 / 10 ∧ defaultKeywordWeight = 3 / 10 := by
  refine ⟨?_, ?_, rfl, rfl⟩
  · intro r hr
    rcases mem_take_sort_map hr with ⟨c, hc, rfl⟩
    refine ⟨?_, c, (List.mem_filter.mp hc).1, rfl⟩
    simp [hybridChunkRowOf, chunkCombinedScore, chunkVectorScore, chunkKeywordScore]
  · intro r hr
    rcases mem_take_sort_map hr with ⟨f, hf, rfl⟩
    refine ⟨?_, f, (List.mem_filter.mp hf).1, rfl⟩
    simp [hybridSummaryRowOf, summaryCombinedScore, summaryVectorScore, summaryKeywordScore]

/-- Witness for C1 at a concrete input. -/
theorem C1_hybrid_combined_score_witness :
    (hybridChunkRowOf cosDistUnit simNoOverlap (unitVec 1) "q"
        defaultKeywordWeight defaultVectorWeight chunkA).combined_score =
      defaultVectorWeight *
          (hybridChunkRowOf cosDistUnit simNoOverlap (unitVec 1) "q"
            defaultKeywordWeight defaultVectorWeight chunkA).vector_score +
        defaultKeywordWeight *
          (hybridChunkRowOf cosDistUnit simNoOverlap (unitVec 1) "q"
            defaultKeywordWeight defaultVectorWeight chunkA).keyword_score :=
  ((C1_hybrid_combined_score cosDistUnit simNoOverlap [chunkA] [] (unitVec 1) "q"
      defaultKeywordWeight defaultVectorWeight 20 none).1 _ (List.Mem.head _)).1

/-- C2, counterexample: `hybrid_search_chunks` applies no similarity
threshold.  A call scoped to repository 20 with cap 20 returns a chunk
whose combined score is `-7/10`, which exceeds no threshold `t ∈ [0,1]`
(shown here for `t = 0`), refuting the claim that every search call
filters by a similarity threshold. -/
theorem C2_counterexample :
    ¬ (∀ r ∈ hybrid_search_chunks cosDistUnit simNoOverlap [chunkC] (unitVec 1) ""
          defaultKeywordWeight defaultVectorWeight 20 (some 20),
        (0 : ℚ) < r.combined_score) := by
  intro h
  have hm := h
    (hybridChunkRowOf cosDistUnit simNoOverlap (unitVec 1) ""
      defaultKeywordWeight defaultVectorWeight chunkC)
    (List.Mem.head _)
  norm_num [hybridChunkRowOf, chunkCombinedScore, cosDistUnit, dotp, unitVec, chunkC,
    simNoOverlap, defaultVectorWeight, defaultKeywordWeight] at hm

/-- C2 amended: the three `match_*` functions return at most `k` rows,
every returned similarity strictly exceeds the threshold, and rows are
ordered descending by similarity; the two hybrid functions return at
most `k` rows ordered descending by `combined_score` but apply no
similarity threshold at all. -/
theorem C2_amended {E : Type} (dist : E → E → ℚ) (sim : String → String → Option ℚ)
    (code_chunks : List (Chunk E)) (file_summaries : List (FileSummary E))
    (query_embedding : E) (query_text : String) (t kw vw : ℚ) (k : Nat)
    (rid : Nat) (orid : Option Nat) (file_paths : List String) :
    ((match_code_chunks dist code_chunks query_embedding t k rid).length ≤ k ∧
      (∀ r ∈ match_code_chunks dist code_chunks query_embedding t k rid,
        t < r.similarity) ∧
      (match_code_chunks dist code_chunks query_embedding t k rid).Pairwise
        (fun a b => b.similarity ≤ a.similarity)) ∧
    ((match_code_chunks_in_files dist code_chunks query_embedding t k rid
        file_paths).length ≤ k ∧
      (∀ r ∈ match_code_chunks_in_files dist code_chunks query_embedding t k rid file_paths,
        t < r.similarity) ∧
      (match_code_chunks_in_files dist code_chunks query_embedding t k rid
        file_paths).Pairwise (fun a b => b.similarity ≤ a.similarity)) ∧
    ((match_file_summaries dist file_summaries query_embedding t k rid).length ≤ k ∧
      (∀ r ∈ match_file_summaries dist file_summaries query_embedding t k rid,
        t < r.similarity) ∧
      (match_file_summaries dist file_summaries query_embedding t k rid).Pairwise
        (fun a b => b.similarity ≤ a.similarity)) ∧
    ((hybrid_search_chunks dist sim code_chunks query_embedding query_text kw vw k
        orid).length ≤ k ∧
      (hybrid_search_chunks dist sim code_chunks query_embedding query_text kw vw k
        orid).Pairwise (fun a b => b.combined_score ≤ a.combined_score)) ∧
    ((hybrid_search_file_summaries dist sim file_summaries query_embedding query_text kw vw k
        orid).length ≤ k ∧
      (hybrid_search_file_summaries dist sim file_summaries query_embedding query_text kw vw k
        orid).Pairwise (fun a b => b.combined_score ≤ a.combined_score)) := by
  refine ⟨⟨length_take_sort_map_le _ _ _ _, ?_, ?_⟩,
    ⟨length_take_sort_map_le _ _ _ _, ?_, ?_⟩,
    ⟨length_take_sort_map_le _ _ _ _, ?_, ?_⟩,
    ⟨length_take_sort_map_le _ _ _ _, ?_⟩,
    ⟨length_take_sort_map_le _ _ _ _, ?_⟩⟩
  · intro r hr
    rcases mem_take_sort_map hr with ⟨c, hc, rfl⟩
    rcases List.mem_filter.mp hc with ⟨-, hpred⟩
    simp only [Bool.and_eq_true, decide_eq_true_eq] at hpred
    exact hpred.2
  · refine pairwise_take_sort_map _ _ _ _ _ ?_
    intro a b h
    simp only [matchChunkRowOf]
    simp only [neg_le_neg_iff] at h
    linarith
  · intro r hr
    rcases mem_take_sort_map hr with ⟨c, hc, rfl⟩
    rcases List.mem_filter.mp hc with ⟨-, hpred⟩
    simp only [Bool.and_eq_true, decide_eq_true_eq] at hpred
    exact hpred.2
  · refine pairwise_take_sort_map _ _ _ _ _ ?_
    intro a b h
    simp only [matchChunkRowOf]
    simp only [neg_le_neg_iff] at h
    linarith
  · intro r hr
    rcases mem_take_sort_map hr with ⟨f, hf, rfl⟩
    rcases List.mem_filter.mp hf with ⟨-, hpred⟩
    simp only [Bool.and_eq_true, decide_eq_true_eq] at hpred
    exact hpred.2
  · refine pairwise_take_sort_map _ _ _ _ _ ?_
    intro a b h
    simp only [matchSummaryRowOf]
    simp only [neg_le_neg_iff] at h
    linarith
  · refine pairwise_take_sort_map _ _ _ _ _ ?_
    intro a b h
    exact h
  · refine pairwise_take_sort_map _ _ _ _ _ ?_
    intro a b h
    exact h

/-- Witness for C2's amended theorem at a concrete input. -/
theorem C2_amended_witness :
    (1 : ℚ) / 2 < (matchChunkRowOf cosDistUnit (unitVec 1) chunkA).similarity := by
  have hval : match_code_chunks cosDistUnit [chunkA] (unitVec 1) (1/2) 20 10
      = [matchChunkRowOf cosDistUnit (unitVec 1) chunkA] := by
    norm_num [match_code_chunks, sortByKeyAsc, sortByKeyDesc, insertByKeyDesc,
      cosDistUnit, dotp, unitVec, chunkA]
  refine (C2_amended cosDistUnit simNoOverlap [chunkA] [] (unitVec 1) "" (1/2)
      defaultKeywordWeight defaultVectorWeight 20 10 none []).1.2.1 _ ?_
  rw [hval]
  exact List.Mem.head _

/-- C3: every chunk returned by the stage-2 scoped search belongs to the
requested repository and its file path is one of the candidate file
paths, so stage-2 scope is a subset of stage-1's candidate file set when
that set is non-empty. -/
theorem C3_stage2_scope {E : Type} (dist : E → E → ℚ) (code_chunks : List (Chunk E))
    (query_embedding : E) (t : ℚ) (k : Nat) (repo_id : Nat) (file_paths : List String)
    (hne : file_paths ≠ []) :
    ∀ r ∈ match_code_chunks_in_files dist code_chunks query_embedding t k repo_id
        file_paths,
      r.file_path ∈ file_paths ∧
      ∃ c ∈ code_chunks, c.repository_id = repo_id ∧ c.id = r.id ∧
        c.file_path = r.file_path := by
  intro r hr
  rcases mem_take_sort_map hr with ⟨c, hc, rfl⟩
  rcases List.mem_filter.mp hc with ⟨hcc, hpred⟩
  simp only [Bool.and_eq_true, beq_iff_eq, decide_eq_true_eq] at hpred
  obtain ⟨⟨hrid, hcont⟩, -⟩ := hpred
  have hmemfp : c.file_path ∈ file_paths := by
    simpa using hcont
  exact ⟨hmemfp, c, hcc, hrid, rfl, rfl⟩

/-- Witness for C3 at a concrete input. -/
theorem C3_stage2_scope_witness :
    (matchChunkRowOf cosDistUnit (unitVec 1) chunkA).file_path ∈ ["a.py", "z.py"] := by
  have hval : match_code_chunks_in_files cosDistUnit [chunkA] (unitVec 1) (1/2) 20 10
      ["a.py", "z.py"] = [matchChunkRowOf cosDistUnit (unitVec 1) chunkA] := by
    norm_num [match_code_chunks_in_files, sortByKeyAsc, sortByKeyDesc, insertByKeyDesc,
      cosDistUnit, dotp, unitVec, chunkA]
  refine (C3_stage2_scope cosDistUnit [chunkA] (unitVec 1) (1/2) 20 10 ["a.py", "z.py"]
      (by simp) _ ?_).1
  rw [hval]
  exact List.Mem.head _

/-- Raising the threshold splits the sorted candidate list: the rows
passing the higher threshold `t1` form a prefix (they have strictly
smaller distance than the rows passing only `t2`). -/
theorem sort_filter_threshold_split (d : α → ℚ) (P : α → Bool) (l : List α)
    {t1 t2 : ℚ} (h : t2 < t1) :
    sortByKeyDesc (fun c => -(d c)) (l.filter (fun c => P c && decide (t2 < 1 - d c)))
      = sortByKeyDesc (fun c => -(d c)) (l.filter (fun c => P c && decide (t1 < 1 - d c)))
        ++ sortByKeyDesc (fun c => -(d c))
            ((l.filter (fun c => P c && decide (t2 < 1 - d c))).filter
              (fun c => ! decide (t1 < 1 - d c))) := by
  have hsplit := sortByKeyDesc_filter_split (fun c => -(d c))
    (fun c => decide (t1 < 1 - d c))
    (l.filter (fun c => P c && decide (t2 < 1 - d c))) ?_
  · rw [hsplit]
    congr 1
    rw [List.filter_filter]
    have heqf : List.filter
        (fun a => decide (t1 < 1 - d a) && (P a && decide (t2 < 1 - d a))) l
        = List.filter (fun c => P c && decide (t1 < 1 - d c)) l := by
      refine List.filter_congr ?_
      intro a _
      by_cases h1 : t1 < 1 - d a
      · have h2 : t2 < 1 - d a := h.trans h1
        simp [h1, h2]
      · simp [h1]
    rw [heqf]
  · intro x hx y hy hpx hpy
    have hx1 : t1 < 1 - d x := of_decide_eq_true hpx
    have hy1 : ¬ t1 < 1 - d y := of_decide_eq_false hpy
    have hy2 : 1 - d y ≤ t1 := not_lt.mp hy1
    show -(d y) < -(d x)
    linarith

/-- Monotonicity at the list level: the result of `match_code_chunks` at
the higher threshold is a prefix of the result at the lower one. -/
theorem match_code_chunks_threshold_prefix {E : Type} (dist : E → E → ℚ)
    (code_chunks : List (Chunk E)) (query_embedding : E) {t1 t2 : ℚ} (k : Nat)
    (rid : Nat) (h : t2 < t1) :
    ∃ rest, match_code_chunks dist code_chunks query_embedding t2 k rid
      = match_code_chunks dist code_chunks query_embedding t1 k rid ++ rest := by
  unfold match_code_chunks sortByKeyAsc
  rw [sort_filter_threshold_split (fun c => dist c.embedding query_embedding)
    (fun c => c.repository_id == rid) code_chunks h]
  rw [List.take_append_eq_append_take, List.map_append]
  exact ⟨_, rfl⟩

/-- Monotonicity at the list level for `match_file_summaries`. -/
theorem match_file_summaries_threshold_prefix {E : Type} (dist : E → E → ℚ)
    (file_summaries : List (FileSummary E)) (query_embedding : E) {t1 t2 : ℚ} (k : Nat)
    (rid : Nat) (h : t2 < t1) :
    ∃ rest, match_file_summaries dist file_summaries query_embedding t2 k rid
      = match_file_summaries dist file_summaries query_embedding t1 k rid ++ rest := by
  unfold match_file_summaries sortByKeyAsc
  rw [sort_filter_threshold_split (fun f => dist f.embedding query_embedding)
    (fun f => f.repository_id == rid) file_summaries h]
  rw [List.take_append_eq_append_take, List.map_append]
  exact ⟨_, rfl⟩

/-- Pairwise-distinct keys make key equality imply element equality on
the list. -/
theorem key_inj_of_pairwise_ne (key : α → ℚ) {l : List α}
    (h : l.Pairwise (fun a b => key a ≠ key b)) :
    ∀ x ∈ l, ∀ y ∈ l, key x = key y → x = y := by
  intro x hx y hy hk
  by_contra hne
  exact (h.forall (fun _ _ hab => hab.symm)) hx hy hne hk

/-- With pairwise-distinct keys, `ORDER BY ... LIMIT` admits exactly one
output: the one the deterministic sort produces. -/
theorem sqlOrderByLimit_eq_sort (key : α → ℚ) (limit : Nat) {input out : List α}
    (hinj : input.Pairwise (fun a b => key a ≠ key b))
    (h : SqlOrderByLimit key limit input out) :
    out = (sortByKeyDesc key input).take limit := by
  obtain ⟨s, hp, hs, rfl⟩ := h
  have hpw : s.Pairwise (fun a b => key a ≠ key b) :=
    (hp.pairwise_iff (fun hab => hab.symm)).mpr hinj
  have hse : s = sortByKeyDesc key input :=
    sorted_perm_eq_of_key_inj key (hp.trans (sortByKeyDesc_perm key input).symm) hs
      (sortedByKeyDesc_sort key input) (key_inj_of_pairwise_ne key hpw)
  rw [hse]

/-- The rows passing the higher threshold are the threshold-filter of
the rows passing the lower one. -/
theorem filter_threshold_subfilter (d : α → ℚ) (P : α → Bool) (l : List α)
    {t1 t2 : ℚ} (h : t2 < t1) :
    l.filter (fun c => P c && decide (t1 < 1 - d c))
      = (l.filter (fun c => P c && decide (t2 < 1 - d c))).filter
          (fun c => decide (t1 < 1 - d c)) := by
  rw [List.filter_filter]
  symm
  refine List.filter_congr ?_
  intro a _
  by_cases h1 : t1 < 1 - d a
  · have h2 : t2 < 1 - d a := h.trans h1
    simp [h1, h2]
  · simp [h1]

/-- A pairwise property of the rows in scope at the lower threshold
restricts to the rows in scope at a higher threshold. -/
theorem pairwise_filter_threshold (d : α → ℚ) (P : α → Bool) (l : List α)
    {t1 t2 : ℚ} (h : t2 < t1) (R : α → α → Prop)
    (hp : (l.filter (fun c => P c && decide (t2 < 1 - d c))).Pairwise R) :
    (l.filter (fun c => P c && decide (t1 < 1 - d c))).Pairwise R := by
  rw [filter_threshold_subfilter d P l h]
  exact hp.sublist (List.filter_sublist _)

/-- The deterministic evaluation is one admissible output of the SQL
semantics of `match_code_chunks`. -/
theorem sqlMatchChunksOutput_eval {E : Type} (dist : E → E → ℚ)
    (code_chunks : List (Chunk E)) (query_embedding : E) (t : ℚ) (k : Nat)
    (rid : Nat) :
    SqlMatchChunksOutput dist code_chunks query_embedding t k rid
      (match_code_chunks dist code_chunks query_embedding t k rid) :=
  ⟨(sortByKeyDesc (fun c => -dist c.embedding query_embedding)
      (code_chunks.filter (fun c =>
        c.repository_id == rid &&
          decide (t < 1 - dist c.embedding query_embedding)))).take k,
    ⟨sortByKeyDesc (fun c => -dist c.embedding query_embedding)
        (code_chunks.filter (fun c =>
          c.repository_id == rid &&
            decide (t < 1 - dist c.embedding query_embedding))),
      sortByKeyDesc_perm _ _, sortedByKeyDesc_sort _ _, rfl⟩, rfl⟩

/-- The deterministic evaluation is one admissible output of the SQL
semantics of `match_file_summaries`. -/
theorem sqlMatchSummariesOutput_eval {E : Type} (dist : E → E → ℚ)
    (file_summaries : List (FileSummary E)) (query_embedding : E) (t : ℚ) (k : Nat)
    (rid : Nat) :
    SqlMatchSummariesOutput dist file_summaries query_embedding t k rid
      (match_file_summaries dist file_summaries query_embedding t k rid) :=
  ⟨(sortByKeyDesc (fun f => -dist f.embedding query_embedding)
      (file_summaries.filter (fun f =>
        f.repository_id == rid &&
          decide (t < 1 - dist f.embedding query_embedding)))).take k,
    ⟨sortByKeyDesc (fun f => -dist f.embedding query_embedding)
        (file_summaries.filter (fun f =>
          f.repository_id == rid &&
            decide (t < 1 - dist f.embedding query_embedding))),
      sortByKeyDesc_perm _ _, sortedByKeyDesc_sort _ _, rfl⟩, rfl⟩

/-- C4, counterexample: the subset property is not guaranteed by the
program at a `LIMIT` boundary between tied rows.  Chunks 1 and 2 tie in
distance and both clear the thresholds `3/4 > 1/2`; with cap 1 the SQL
semantics admits `[row of chunk 1]` at threshold `3/4` and
`[row of chunk 2]` at threshold `1/2` (the `ORDER BY` fixes no order
among ties), and the former is not a subset of the latter. -/
theorem C4_counterexample :
    SqlMatchChunksOutput cosDistUnit [chunkA, chunkB] (unitVec 1) (3/4) 1 10
        [matchChunkRowOf cosDistUnit (unitVec 1) chunkA] ∧
    SqlMatchChunksOutput cosDistUnit [chunkA, chunkB] (unitVec 1) (1/2) 1 10
        [matchChunkRowOf cosDistUnit (unitVec 1) chunkB] ∧
    matchChunkRowOf cosDistUnit (unitVec 1) chunkA ∉
      [matchChunkRowOf cosDistUnit (unitVec 1) chunkB] := by
  have hfilt1 : [chunkA, chunkB].filter
      (fun c => c.repository_id == 10 &&
        decide ((3:ℚ)/4 < 1 - cosDistUnit c.embedding (unitVec 1))) = [chunkA, chunkB] := by
    norm_num [cosDistUnit, dotp, unitVec, chunkA, chunkB]
  have hfilt2 : [chunkA, chunkB].filter
      (fun c => c.repository_id == 10 &&
        decide ((1:ℚ)/2 < 1 - cosDistUnit c.embedding (unitVec 1))) = [chunkA, chunkB] := by
    norm_num [cosDistUnit, dotp, unitVec, chunkA, chunkB]
  have hsortAB : SortedByKeyDesc
      (fun c : Chunk (List ℚ) => -cosDistUnit c.embedding (unitVec 1)) [chunkA, chunkB] := by
    unfold SortedByKeyDesc
    norm_num [List.pairwise_cons, cosDistUnit, dotp, unitVec, chunkA, chunkB]
  have hsortBA : SortedByKeyDesc
      (fun c : Chunk (List ℚ) => -cosDistUnit c.embedding (unitVec 1)) [chunkB, chunkA] := by
    unfold SortedByKeyDesc
    norm_num [List.pairwise_cons, cosDistUnit, dotp, unitVec, chunkA, chunkB]
  refine ⟨⟨[chunkA], ⟨[chunkA, chunkB], ?_, hsortAB, rfl⟩, rfl⟩,
    ⟨[chunkB], ⟨[chunkB, chunkA], ?_, hsortBA, rfl⟩, rfl⟩, ?_⟩
  · rw [hfilt1]
  · rw [hfilt2]
    exact List.Perm.swap chunkA chunkB []
  · simp [matchChunkRowOf, chunkA, chunkB]

/-- C4 amended: with the same query embedding, result cap and repository
scope over unchanged data, whenever the similarity scores of the rows in
scope at the lower threshold `t2` are pairwise distinct, every row of
any admissible output at threshold `t1 > t2` also occurs in the
admissible output at `t2` — the `t1` result set is a subset of the `t2`
result set; with tied scores the inclusion can fail at the `LIMIT`
boundary because the `ORDER BY` fixes no order among ties. -/
theorem C4_amended {E : Type} (dist : E → E → ℚ) (code_chunks : List (Chunk E))
    (file_summaries : List (FileSummary E)) (query_embedding : E) (t1 t2 : ℚ)
    (k : Nat) (rid : Nat) (h : t1 > t2) :
    (∀ out1 out2 : List MatchChunkRow,
      (code_chunks.filter (fun c =>
          c.repository_id == rid &&
            decide (t2 < 1 - dist c.embedding query_embedding))).Pairwise
        (fun a b => dist a.embedding query_embedding ≠ dist b.embedding query_embedding) →
      SqlMatchChunksOutput dist code_chunks query_embedding t1 k rid out1 →
      SqlMatchChunksOutput dist code_chunks query_embedding t2 k rid out2 →
      ∀ r ∈ out1, r ∈ out2) ∧
    (∀ out1 out2 : List MatchSummaryRow,
      (file_summaries.filter (fun f =>
          f.repository_id == rid &&
            decide (t2 < 1 - dist f.embedding query_embedding))).Pairwise
        (fun a b => dist a.embedding query_embedding ≠ dist b.embedding query_embedding) →
      SqlMatchSummariesOutput dist file_summaries query_embedding t1 k rid out1 →
      SqlMatchSummariesOutput dist file_summaries query_embedding t2 k rid out2 →
      ∀ r ∈ out1, r ∈ out2) := by
  constructor
  · intro out1 out2 hinj h1 h2
    have hinj1 : (code_chunks.filter (fun c =>
        c.repository_id == rid &&
          decide (t1 < 1 - dist c.embedding query_embedding))).Pairwise
        (fun a b => dist a.embedding query_embedding ≠ dist b.embedding query_embedding) :=
      pairwise_filter_threshold (fun c => dist c.embedding query_embedding)
        (fun c => c.repository_id == rid) code_chunks h _ hinj
    have hkey1 : (code_chunks.filter (fun c =>
        c.repository_id == rid &&
          decide (t1 < 1 - dist c.embedding query_embedding))).Pairwise
        (fun a b => -dist a.embedding query_embedding ≠ -dist b.embedding query_embedding) :=
      hinj1.imp (fun hab hk => hab (neg_injective hk))
    have hkey2 : (code_chunks.filter (fun c =>
        c.repository_id == rid &&
          decide (t2 < 1 - dist c.embedding query_embedding))).Pairwise
        (fun a b => -dist a.embedding query_embedding ≠ -dist b.embedding query_embedding) :=
      hinj.imp (fun hab hk => hab (neg_injective hk))
    obtain ⟨ta, hOBLa, rfl⟩ := h1
    obtain ⟨tb, hOBLb, rfl⟩ := h2
    have ea := sqlOrderByLimit_eq_sort
      (fun c : Chunk E => -dist c.embedding query_embedding) k hkey1 hOBLa
    have eb := sqlOrderByLimit_eq_sort
      (fun c : Chunk E => -dist c.embedding query_embedding) k hkey2 hOBLb
    intro r hr
    have hr1 : r ∈ match_code_chunks dist code_chunks query_embedding t1 k rid := by
      rw [ea] at hr
      exact hr
    have hr2 : r ∈ match_code_chunks dist code_chunks query_embedding t2 k rid := by
      obtain ⟨rest, hrest⟩ :=
        match_code_chunks_threshold_prefix dist code_chunks query_embedding k rid h
      rw [hrest]
      exact List.mem_append_left _ hr1
    rw [eb]
    exact hr2
  · intro out1 out2 hinj h1 h2
    have hinj1 : (file_summaries.filter (fun f =>
        f.repository_id == rid &&
          decide (t1 < 1 - dist f.embedding query_embedding))).Pairwise
        (fun a b => dist a.embedding query_embedding ≠ dist b.embedding query_embedding) :=
      pairwise_filter_threshold (fun f => dist f.embedding query_embedding)
        (fun f => f.repository_id == rid) file_summaries h _ hinj
    have hkey1 : (file_summaries.filter (fun f =>
        f.repository_id == rid &&
          decide (t1 < 1 - dist f.embedding query_embedding))).Pairwise
        (fun a b => -dist a.embedding query_embedding ≠ -dist b.embedding query_embedding) :=
      hinj1.imp (fun hab hk => hab (neg_injective hk))
    have hkey2 : (file_summaries.filter (fun f =>
        f.repository_id == rid &&
          decide (t2 < 1 - dist f.embedding query_embedding))).Pairwise
        (fun a b => -dist a.embedding query_embedding ≠ -dist b.embedding query_embedding) :=
      hinj.imp (fun hab hk => hab (neg_injective hk))
    obtain ⟨ta, hOBLa, rfl⟩ := h1
    obtain ⟨tb, hOBLb, rfl⟩ := h2
    have ea := sqlOrderByLimit_eq_sort
      (fun f : FileSummary E => -dist f.embedding query_embedding) k hkey1 hOBLa
    have eb := sqlOrderByLimit_eq_sort
      (fun f : FileSummary E => -dist f.embedding query_embedding) k hkey2 hOBLb
    intro r hr
    have hr1 : r ∈ match_file_summaries dist file_summaries query_embedding t1 k rid := by
      rw [ea] at hr
      exact hr
    have hr2 : r ∈ match_file_summaries dist file_summaries query_embedding t2 k rid := by
      obtain ⟨rest, hrest⟩ :=
        match_file_summaries_threshold_prefix dist file_summaries query_embedding k rid h
      rw [hrest]
      exact List.mem_append_left _ hr1
    rw [eb]
    exact hr2

/-- Witness for C4's amended theorem at a concrete input with pairwise
distinct scores: the chunk returned at threshold 3/4 is also returned at
threshold 1/2. -/
theorem C4_amended_witness :
    matchChunkRowOf cosDistUnit (unitVec 1) chunkA ∈
      match_code_chunks cosDistUnit [chunkA, chunkD] (unitVec 1) (1/2) 20 10 := by
  have hval1 : match_code_chunks cosDistUnit [chunkA, chunkD] (unitVec 1) (3/4) 20 10
      = [matchChunkRowOf cosDistUnit (unitVec 1) chunkA,
        matchChunkRowOf cosDistUnit (unitVec 1) chunkD] := by
    norm_num [match_code_chunks, sortByKeyAsc, sortByKeyDesc, insertByKeyDesc,
      cosDistUnit, dotp, unitVec, chunkA, chunkD]
  refine (C4_amended cosDistUnit [chunkA, chunkD] [] (unitVec 1) (3/4) (1/2) 20 10
      (by norm_num)).1
    (match_code_chunks cosDistUnit [chunkA, chunkD] (unitVec 1) (3/4) 20 10)
    (match_code_chunks cosDistUnit [chunkA, chunkD] (unitVec 1) (1/2) 20 10)
    ?_ (sqlMatchChunksOutput_eval cosDistUnit [chunkA, chunkD] (unitVec 1) (3/4) 20 10)
    (sqlMatchChunksOutput_eval cosDistUnit [chunkA, chunkD] (unitVec 1) (1/2) 20 10)
    _ ?_
  · have hfilt : [chunkA, chunkD].filter
        (fun c => c.repository_id == 10 &&
          decide ((1:ℚ)/2 < 1 - cosDistUnit c.embedding (unitVec 1))) = [chunkA, chunkD] := by
      norm_num [cosDistUnit, dotp, unitVec, chunkA, chunkD]
    rw [hfilt]
    norm_num [List.pairwise_cons, cosDistUnit, dotp, unitVec, chunkA, chunkD]
  · rw [hval1]
    exact List.Mem.head _

/-- The deterministic evaluation is one admissible output of the SQL
`ORDER BY combined_score DESC LIMIT match_count` semantics. -/
theorem sqlHybridChunksOutput_eval {E : Type} (dist : E → E → ℚ)
    (sim : String → String → Option ℚ) (code_chunks : List (Chunk E))
    (query_embedding : E) (query_text : String) (kw vw : ℚ) (n : Nat)
    (repo_id : Option Nat) :
    SqlHybridChunksOutput dist sim code_chunks query_embedding query_text kw vw n repo_id
      (hybrid_search_chunks dist sim code_chunks query_embedding query_text kw vw n
        repo_id) := by
  exact ⟨(sortByKeyDesc
      (chunkCombinedScore dist sim query_embedding query_text kw vw)
      (code_chunks.filter (chunkRepoPred repo_id))).take n,
    ⟨sortByKeyDesc (chunkCombinedScore dist sim query_embedding query_text kw vw)
        (code_chunks.filter (chunkRepoPred repo_id)),
      sortByKeyDesc_perm _ _, sortedByKeyDesc_sort _ _, rfl⟩, rfl⟩

/-- C5, counterexample: the SQL `ORDER BY combined_score DESC` breaks
ties by no criterion, so two rows with identical scores (chunks 1 and 2
below, which differ only in identifier and file path) may legitimately
come back in either order: both orders are admissible outputs of the
same call, and they differ.  Determinism with a fixed tie-break (e.g. by
entity identifier) is therefore not guaranteed by the code. -/
theorem C5_counterexample :
    SqlHybridChunksOutput cosDistUnit simNoOverlap [chunkA, chunkB] (unitVec 1) ""
        defaultKeywordWeight defaultVectorWeight 20 (some 10)
        [hybridChunkRowOf cosDistUnit simNoOverlap (unitVec 1) "" defaultKeywordWeight
            defaultVectorWeight chunkA,
          hybridChunkRowOf cosDistUnit simNoOverlap (unitVec 1) "" defaultKeywordWeight
            defaultVectorWeight chunkB] ∧
    SqlHybridChunksOutput cosDistUnit simNoOverlap [chunkA, chunkB] (unitVec 1) ""
        defaultKeywordWeight defaultVectorWeight 20 (some 10)
        [hybridChunkRowOf cosDistUnit simNoOverlap (unitVec 1) "" defaultKeywordWeight
            defaultVectorWeight chunkB,
          hybridChunkRowOf cosDistUnit simNoOverlap (unitVec 1) "" defaultKeywordWeight
            defaultVectorWeight chunkA] ∧
    [hybridChunkRowOf cosDistUnit simNoOverlap (unitVec 1) "" defaultKeywordWeight
        defaultVectorWeight chunkA,
      hybridChunkRowOf cosDistUnit simNoOverlap (unitVec 1) "" defaultKeywordWeight
        defaultVectorWeight chunkB] ≠
    [hybridChunkRowOf cosDistUnit simNoOverlap (unitVec 1) "" defaultKeywordWeight
        defaultVectorWeight chunkB,
      hybridChunkRowOf cosDistUnit simNoOverlap (unitVec 1) "" defaultKeywordWeight
        defaultVectorWeight chunkA] := by
  have hkey : chunkCombinedScore cosDistUnit simNoOverlap (unitVec 1) ""
      defaultKeywordWeight defaultVectorWeight chunkB ≤
      chunkCombinedScore cosDistUnit simNoOverlap (unitVec 1) ""
        defaultKeywordWeight defaultVectorWeight chunkA := by
    norm_num [chunkCombinedScore, cosDistUnit, dotp, unitVec, chunkA, chunkB, simNoOverlap]
  have hkey' : chunkCombinedScore cosDistUnit simNoOverlap (unitVec 1) ""
      defaultKeywordWeight defaultVectorWeight chunkA ≤
      chunkCombinedScore cosDistUnit simNoOverlap (unitVec 1) ""
        defaultKeywordWeight defaultVectorWeight chunkB := by
    norm_num [chunkCombinedScore, cosDistUnit, dotp, unitVec, chunkA, chunkB, simNoOverlap]
  refine ⟨⟨[chunkA, chunkB], ⟨[chunkA, chunkB], ?_, ?_, rfl⟩, rfl⟩,
    ⟨[chunkB, chunkA], ⟨[chunkB, chunkA], ?_, ?_, rfl⟩, rfl⟩, ?_⟩
  · exact List.Perm.refl _
  · unfold SortedByKeyDesc
    simp [List.pairwise_cons, hkey]
  · exact List.Perm.swap chunkA chunkB []
  · unfold SortedByKeyDesc
    simp [List.pairwise_cons, hkey']
  · intro hcontra
    have hids := congrArg (fun l => l.map (fun r => r.id)) hcontra
    simp [hybridChunkRowOf, chunkA, chunkB] at hids

/-- C5 amended: against unchanged data the output of a hybrid search is
determined only up to the relative order (and `LIMIT`-boundary choice)
of rows with tied combined scores; whenever the combined scores of the
chunks in scope are pairwise distinct, any two admissible outputs of the
same call coincide, so the operation is deterministic.  (The
deterministic evaluation modelled by `hybrid_search_chunks` always
returns one fixed admissible output.) -/
theorem C5_amended {E : Type} (dist : E → E → ℚ) (sim : String → String → Option ℚ)
    (code_chunks : List (Chunk E)) (query_embedding : E) (query_text : String)
    (kw vw : ℚ) (n : Nat) (repo_id : Option Nat) (out1 out2 : List HybridChunkRow)
    (hinj : (code_chunks.filter (chunkRepoPred repo_id)).Pairwise
      (fun a b => chunkCombinedScore dist sim query_embedding query_text kw vw a ≠
        chunkCombinedScore dist sim query_embedding query_text kw vw b))
    (h1 : SqlHybridChunksOutput dist sim code_chunks query_embedding query_text kw vw n
      repo_id out1)
    (h2 : SqlHybridChunksOutput dist sim code_chunks query_embedding query_text kw vw n
      repo_id out2) :
    out1 = out2 := by
  obtain ⟨t1, ⟨s1, hp1, hs1, rfl⟩, rfl⟩ := h1
  obtain ⟨t2, ⟨s2, hp2, hs2, rfl⟩, rfl⟩ := h2
  have hsymm : ∀ {x y : Chunk E},
      (chunkCombinedScore dist sim query_embedding query_text kw vw x ≠
        chunkCombinedScore dist sim query_embedding query_text kw vw y) →
      (chunkCombinedScore dist sim query_embedding query_text kw vw y ≠
        chunkCombinedScore dist sim query_embedding query_text kw vw x) :=
    fun h => h.symm
  have hpw1 : s1.Pairwise
      (fun a b => chunkCombinedScore dist sim query_embedding query_text kw vw a ≠
        chunkCombinedScore dist sim query_embedding query_text kw vw b) :=
    (hp1.pairwise_iff hsymm).mpr hinj
  have hinj1 : ∀ x ∈ s1, ∀ y ∈ s1,
      chunkCombinedScore dist sim query_embedding query_text kw vw x =
        chunkCombinedScore dist sim query_embedding query_text kw vw y → x = y := by
    intro x hx y hy hk
    by_contra hne
    exact (hpw1.forall (fun _ _ h => h.symm)) hx hy hne hk
  have hs12 : s1 = s2 :=
    sorted_perm_eq_of_key_inj _ (hp1.trans hp2.symm) hs1 hs2 hinj1
  rw [hs12]

/-- Witness for C5's amended theorem at a concrete input with pairwise
distinct combined scores. -/
theorem C5_amended_witness :
    hybrid_search_chunks cosDistUnit simNoOverlap [chunkA, chunkC] (unitVec 1) ""
        defaultKeywordWeight defaultVectorWeight 20 none =
      hybrid_search_chunks cosDistUnit simNoOverlap [chunkA, chunkC] (unitVec 1) ""
        defaultKeywordWeight defaultVectorWeight 20 none := by
  refine C5_amended cosDistUnit simNoOverlap [chunkA, chunkC] (unitVec 1) ""
    defaultKeywordWeight defaultVectorWeight 20 none _ _ ?_
    (sqlHybridChunksOutput_eval cosDistUnit simNoOverlap [chunkA, chunkC] (unitVec 1) ""
      defaultKeywordWeight defaultVectorWeight 20 none)
    (sqlHybridChunksOutput_eval cosDistUnit simNoOverlap [chunkA, chunkC] (unitVec 1) ""
      defaultKeywordWeight defaultVectorWeight 20 none)
  simp only [List.filter, chunkRepoPred]
  norm_num [List.pairwise_cons, chunkCombinedScore, cosDistUnit, dotp, unitVec,
    chunkA, chunkC, simNoOverlap, defaultKeywordWeight, defaultVectorWeight]

/-- C6 (spec-modelled): when stage 1 yields no candidate files, the
retriever falls back to the unscoped stage-2 search over the whole
repository: it returns (after the defensive dedup) exactly the chunks
clearing the chunk-level threshold, ranked descending by chunk score,
each belonging to the requested repository — rather than an empty
result. -/
theorem C6_stage1_empty_fallback {E : Type} (dist : E → E → ℚ)
    (file_summaries : List (FileSummary E)) (code_chunks : List (Chunk E))
    (query_embedding : E) (ft : ℚ) (fcap : Nat) (ct : ℚ) (ccap : Nat) (rid : Nat)
    (hF : match_file_summaries dist file_summaries query_embedding ft fcap rid = []) :
    retrieve dist file_summaries code_chunks query_embedding ft fcap ct ccap rid
        = dedupById (match_code_chunks dist code_chunks query_embedding ct ccap rid) ∧
    (∀ r ∈ retrieve dist file_summaries code_chunks query_embedding ft fcap ct ccap rid,
      ct < r.similarity ∧
      ∃ c ∈ code_chunks, c.repository_id = rid ∧ r = matchChunkRowOf dist query_embedding c) ∧
    (retrieve dist file_summaries code_chunks query_embedding ft fcap ct ccap rid).Pairwise
      (fun a b => b.similarity ≤ a.similarity) := by
  have heq : retrieve dist file_summaries code_chunks query_embedding ft fcap ct ccap rid
      = dedupById (match_code_chunks dist code_chunks query_embedding ct ccap rid) := by
    simp [retrieve, hF]
  refine ⟨heq, ?_, ?_⟩
  · intro r hr
    rw [heq] at hr
    have hr' : r ∈ match_code_chunks dist code_chunks query_embedding ct ccap rid :=
      (dedupById_sublist _).subset hr
    rcases mem_take_sort_map hr' with ⟨c, hc, rfl⟩
    rcases List.mem_filter.mp hc with ⟨hcc, hpred⟩
    simp only [Bool.and_eq_true, beq_iff_eq, decide_eq_true_eq] at hpred
    exact ⟨hpred.2, c, hcc, hpred.1, rfl⟩
  · rw [heq]
    refine List.Pairwise.sublist (dedupById_sublist _) ?_
    refine pairwise_take_sort_map _ _ _ _ _ ?_
    intro a b h
    simp only [matchChunkRowOf]
    simp only [neg_le_neg_iff] at h
    linarith

/-- Witness for C6: a repository with zero file summaries and three
chunks above the chunk threshold; the fallback returns all three,
ranked. -/
theorem C6_stage1_empty_fallback_witness :
    retrieve cosDistUnit [] [chunkA, chunkD, chunkE] (unitVec 1) (3/5) 10 (1/2) 20 10
        = dedupById (match_code_chunks cosDistUnit [chunkA, chunkD, chunkE] (unitVec 1)
            (1/2) 20 10) ∧
    (retrieve cosDistUnit [] [chunkA, chunkD, chunkE] (unitVec 1) (3/5) 10 (1/2) 20
        10).length = 3 := by
  constructor
  · exact (C6_stage1_empty_fallback cosDistUnit [] [chunkA, chunkD, chunkE] (unitVec 1)
      (3/5) 10 (1/2) 20 10 rfl).1
  · norm_num [retrieve, match_file_summaries, match_code_chunks, sortByKeyAsc,
      sortByKeyDesc, insertByKeyDesc, dedupById, dedupByIdAux, cosDistUnit, dotp, unitVec,
      chunkA, chunkD, chunkE, matchChunkRowOf]

/-- C7: when the trigram similarity yields no overlap for the query text
(e.g. the query text is empty), every returned candidate of either
hybrid search has `keyword_score = 0` — not an error — and its
`combined_score` equals `vector_weight · vector_score` exactly. -/
theorem C7_empty_query_keyword_zero {E : Type} (dist : E → E → ℚ)
    (sim : String → String → Option ℚ) (code_chunks : List (Chunk E))
    (file_summaries : List (FileSummary E)) (query_embedding : E) (query_text : String)
    (kw vw : ℚ) (n : Nat) (repo_id : Option Nat)
    (hsim : ∀ s, sim s query_text = none ∨ sim s query_text = some 0) :
    (∀ r ∈ hybrid_search_chunks dist sim code_chunks query_embedding query_text kw vw n
        repo_id,
      r.keyword_score = 0 ∧ r.combined_score = vw * r.vector_score) ∧
    (∀ r ∈ hybrid_search_file_summaries dist sim file_summaries query_embedding query_text
        kw vw n repo_id,
      r.keyword_score = 0 ∧ r.combined_score = vw * r.vector_score) := by
  constructor
  · intro r hr
    rcases mem_take_sort_map hr with ⟨c, -, rfl⟩
    have hk : (sim c.content query_text).getD 0 = 0 := by
      rcases hsim c.content with h | h <;> simp [h]
    constructor
    · simp [hybridChunkRowOf, chunkKeywordScore, hk]
    · simp [hybridChunkRowOf, chunkCombinedScore, chunkVectorScore, chunkKeywordScore, hk]
  · intro r hr
    rcases mem_take_sort_map hr with ⟨f, -, rfl⟩
    have hk : (sim f.summary query_text).getD 0 = 0 := by
      rcases hsim f.summary with h | h <;> simp [h]
    constructor
    · simp [hybridSummaryRowOf, summaryKeywordScore, hk]
    · simp [hybridSummaryRowOf, summaryCombinedScore, summaryVectorScore,
        summaryKeywordScore, hk]

/-- Witness for C7 at a concrete input with an empty query text. -/
theorem C7_empty_query_keyword_zero_witness :
    (hybridChunkRowOf cosDistUnit simNoOverlap (unitVec 1) "" defaultKeywordWeight
      defaultVectorWeight chunkA).keyword_score = 0 :=
  ((C7_empty_query_keyword_zero cosDistUnit simNoOverlap [chunkA] [] (unitVec 1) ""
      defaultKeywordWeight defaultVectorWeight 20 none
      (fun _ => Or.inr rfl)).1 _ (List.Mem.head _)).1

/-- C8 (spec-modelled): if the cross-encoder reranker raises an
unavailability error, the retrieval operation still succeeds and the
returned passage order equals the pre-rerank stage-2 order unchanged. -/
theorem C8_rerank_fail_soft {E : Type} (dist : E → E → ℚ)
    (rerank : String → List MatchChunkRow → Except String (List MatchChunkRow))
    (file_summaries : List (FileSummary E)) (code_chunks : List (Chunk E))
    (query_text : String) (query_embedding : E) (ft : ℚ) (fcap : Nat) (ct : ℚ)
    (ccap : Nat) (rid : Nat) (e : String)
    (herr : rerank query_text
        (retrieve dist file_summaries code_chunks query_embedding ft fcap ct ccap rid)
      = Except.error e) :
    retrieveAndRerank dist rerank file_summaries code_chunks query_text query_embedding
        ft fcap ct ccap rid
      = retrieve dist file_summaries code_chunks query_embedding ft fcap ct ccap rid := by
  unfold retrieveAndRerank applyRerank
  rw [herr]

/-- Witness for C8: a reranker that always reports unavailability leaves
the stage-2 order unchanged. -/
theorem C8_rerank_fail_soft_witness :
    retrieveAndRerank cosDistUnit (fun _ _ => Except.error "model unavailable")
        [summaryA] [chunkA] "q" (unitVec 1) (1/2) 10 (1/2) 20 10
      = retrieve cosDistUnit [summaryA] [chunkA] (unitVec 1) (1/2) 10 (1/2) 20 10 :=
  C8_rerank_fail_soft cosDistUnit (fun _ _ => Except.error "model unavailable")
    [summaryA] [chunkA] "q" (unitVec 1) (1/2) 10 (1/2) 20 10 "model unavailable" rfl

/-- C9, counterexample: scores are not confined to `[0,1]` for every
query and candidate.  A stored unit embedding opposed to the query
vector has cosine distance 2, so the returned `vector_score` is `-1`,
outside `[0,1]` — the engine clamps nothing. -/
theorem C9_counterexample :
    ¬ (∀ r ∈ hybrid_search_chunks cosDistUnit simNoOverlap [chunkC] (unitVec 1) ""
          defaultKeywordWeight defaultVectorWeight 20 (some 20),
        0 ≤ r.vector_score ∧ r.vector_score ≤ 1) := by
  intro h
  have hm := h
    (hybridChunkRowOf cosDistUnit simNoOverlap (unitVec 1) ""
      defaultKeywordWeight defaultVectorWeight chunkC)
    (List.Mem.head _)
  norm_num [hybridChunkRowOf, chunkVectorScore, cosDistUnit, dotp, unitVec, chunkC] at hm

/-- C9 amended: every returned score lies in `[0,1]` provided the cosine
distance between each stored embedding and the query embedding lies in
`[0,1]` (as for the non-negatively correlated embeddings occurring in
practice), the trigram similarity lies in `[0,1]`, and the fusion
weights are non-negative with sum at most 1; without the distance
restriction `vector_score` can reach `-1`. -/
theorem C9_amended {E : Type} (dist : E → E → ℚ) (sim : String → String → Option ℚ)
    (code_chunks : List (Chunk E)) (file_summaries : List (FileSummary E))
    (query_embedding : E) (query_text : String) (kw vw : ℚ) (n : Nat)
    (repo_id : Option Nat) (t : ℚ) (k : Nat) (rid2 : Nat)
    (hdc : ∀ c ∈ code_chunks,
      0 ≤ dist c.embedding query_embedding ∧ dist c.embedding query_embedding ≤ 1)
    (hdf : ∀ f ∈ file_summaries,
      0 ≤ dist f.embedding query_embedding ∧ dist f.embedding query_embedding ≤ 1)
    (hsim : ∀ a b : String, ∀ r : ℚ, sim a b = some r → 0 ≤ r ∧ r ≤ 1)
    (hkw : 0 ≤ kw) (hvw : 0 ≤ vw) (hw : vw + kw ≤ 1) :
    (∀ r ∈ hybrid_search_chunks dist sim code_chunks query_embedding query_text kw vw n
        repo_id,
      (0 ≤ r.vector_score ∧ r.vector_score ≤ 1) ∧
      (0 ≤ r.keyword_score ∧ r.keyword_score ≤ 1) ∧
      (0 ≤ r.combined_score ∧ r.combined_score ≤ 1)) ∧
    (∀ r ∈ hybrid_search_file_summaries dist sim file_summaries query_embedding query_text
        kw vw n repo_id,
      (0 ≤ r.vector_score ∧ r.vector_score ≤ 1) ∧
      (0 ≤ r.keyword_score ∧ r.keyword_score ≤ 1) ∧
      (0 ≤ r.combined_score ∧ r.combined_score ≤ 1)) ∧
    (∀ r ∈ match_code_chunks dist code_chunks query_embedding t k rid2,
      0 ≤ r.similarity ∧ r.similarity ≤ 1) ∧
    (∀ r ∈ match_file_summaries dist file_summaries query_embedding t k rid2,
      0 ≤ r.similarity ∧ r.similarity ≤ 1) := by
  refine ⟨?_, ?_, ?_, ?_⟩
  · intro r hr
    rcases mem_take_sort_map hr with ⟨c, hc, rfl⟩
    have hd := hdc c (List.mem_filter.mp hc).1
    have hkwrange : 0 ≤ (sim c.content query_text).getD 0 ∧
        (sim c.content query_text).getD 0 ≤ 1 := by
      cases hs : sim c.content query_text with
      | none => norm_num
      | some x => simpa using hsim _ _ _ hs
    simp only [hybridChunkRowOf, chunkVectorScore, chunkKeywordScore, chunkCombinedScore]
    have h1 : vw * (1 - dist c.embedding query_embedding) ≤ vw :=
      mul_le_of_le_one_right hvw (by linarith [hd.1])
    have h2 : kw * (sim c.content query_text).getD 0 ≤ kw :=
      mul_le_of_le_one_right hkw hkwrange.2
    have h3 : 0 ≤ vw * (1 - dist c.embedding query_embedding) :=
      mul_nonneg hvw (by linarith [hd.2])
    have h4 : 0 ≤ kw * (sim c.content query_text).getD 0 :=
      mul_nonneg hkw hkwrange.1
    refine ⟨⟨by linarith [hd.2], by linarith [hd.1]⟩, hkwrange, ?_, ?_⟩
    · linarith
    · linarith
  · intro r hr
    rcases mem_take_sort_map hr with ⟨f, hf, rfl⟩
    have hd := hdf f (List.mem_filter.mp hf).1
    have hkwrange : 0 ≤ (sim f.summary query_text).getD 0 ∧
        (sim f.summary query_text).getD 0 ≤ 1 := by
      cases hs : sim f.summary query_text with
      | none => norm_num
      | some x => simpa using hsim _ _ _ hs
    simp only [hybridSummaryRowOf, summaryVectorScore, summaryKeywordScore,
      summaryCombinedScore]
    have h1 : vw * (1 - dist f.embedding query_embedding) ≤ vw :=
      mul_le_of_le_one_right hvw (by linarith [hd.1])
    have h2 : kw * (sim f.summary query_text).getD 0 ≤ kw :=
      mul_le_of_le_one_right hkw hkwrange.2
    have h3 : 0 ≤ vw * (1 - dist f.embedding query_embedding) :=
      mul_nonneg hvw (by linarith [hd.2])
    have h4 : 0 ≤ kw * (sim f.summary query_text).getD 0 :=
      mul_nonneg hkw hkwrange.1
    refine ⟨⟨by linarith [hd.2], by linarith [hd.1]⟩, hkwrange, ?_, ?_⟩
    · linarith
    · linarith
  · intro r hr
    rcases mem_take_sort_map hr with ⟨c, hc, rfl⟩
    have hd := hdc c (List.mem_filter.mp hc).1
    simp only [matchChunkRowOf]
    exact ⟨by linarith [hd.2], by linarith [hd.1]⟩
  · intro r hr
    rcases mem_take_sort_map hr with ⟨f, hf, rfl⟩
    have hd := hdf f (List.mem_filter.mp hf).1
    simp only [matchSummaryRowOf]
    exact ⟨by linarith [hd.2], by linarith [hd.1]⟩

/-- Witness for C9's amended theorem at a concrete input. -/
theorem C9_amended_witness :
    0 ≤ (hybridChunkRowOf cosDistUnit simNoOverlap (unitVec 1) "" defaultKeywordWeight
        defaultVectorWeight chunkA).combined_score ∧
    (hybridChunkRowOf cosDistUnit simNoOverlap (unitVec 1) "" defaultKeywordWeight
        defaultVectorWeight chunkA).combined_score ≤ 1 := by
  refine ((C9_amended cosDistUnit simNoOverlap [chunkA] [summaryA] (unitVec 1) ""
      defaultKeywordWeight defaultVectorWeight 20 none (1/2) 20 10
      ?_ ?_ ?_ ?_ ?_ ?_).1 _ (List.Mem.head _)).2.2
  · intro c hc
    rw [List.mem_singleton.mp hc]
    norm_num [cosDistUnit, dotp, unitVec, chunkA]
  · intro f hf
    rw [List.mem_singleton.mp hf]
    norm_num [cosDistUnit, dotp, unitVec, summaryA]
  · intro a b r h
    have hr : r = 0 := by
      have := h.symm
      simpa [simNoOverlap] using this
    rw [hr]
    norm_num
  · norm_num [defaultKeywordWeight]
  · norm_num [defaultVectorWeight]
  · norm_num [defaultKeywordWeight, defaultVectorWeight]

/-- C10: with a null repository identifier the hybrid searches range
over the chunks (respectively file summaries) of every repository —
rows from several repositories can be returned, as the concrete instance
with chunks of repositories 10 and 20 shows — while with a non-null
identifier every returned row comes from a stored row of that
repository. -/
theorem C10_repo_scope {E : Type} (dist : E → E → ℚ) (sim : String → String → Option ℚ)
    (code_chunks : List (Chunk E)) (file_summaries : List (FileSummary E))
    (query_embedding : E) (query_text : String) (kw vw : ℚ) (n : Nat) :
    (∀ rid : Nat, ∀ r ∈ hybrid_search_chunks dist sim code_chunks query_embedding
        query_text kw vw n (some rid),
      ∃ c ∈ code_chunks, c.repository_id = rid ∧
        r = hybridChunkRowOf dist sim query_embedding query_text kw vw c) ∧
    (∀ rid : Nat, ∀ r ∈ hybrid_search_file_summaries dist sim file_summaries
        query_embedding query_text kw vw n (some rid),
      ∃ f ∈ file_summaries, f.repository_id = rid ∧
        r = hybridSummaryRowOf dist sim query_embedding query_text kw vw f) ∧
    (hybrid_search_chunks dist sim code_chunks query_embedding query_text kw vw n none
      = ((sortByKeyDesc (chunkCombinedScore dist sim query_embedding query_text kw vw)
          code_chunks).take n).map
            (hybridChunkRowOf dist sim query_embedding query_text kw vw)) ∧
    (hybrid_search_file_summaries dist sim file_summaries query_embedding query_text kw vw
        n none
      = ((sortByKeyDesc (summaryCombinedScore dist sim query_embedding query_text kw vw)
          file_summaries).take n).map
            (hybridSummaryRowOf dist sim query_embedding query_text kw vw)) ∧
    (hybrid_search_chunks cosDistUnit simNoOverlap [chunkA, chunkC] (unitVec 1) ""
        defaultKeywordWeight defaultVectorWeight 20 none).map (fun r => r.id)
      = [1, 3] := by
  refine ⟨?_, ?_, ?_, ?_, ?_⟩
  · intro rid r hr
    rcases mem_take_sort_map hr with ⟨c, hc, rfl⟩
    rcases List.mem_filter.mp hc with ⟨hcc, hpred⟩
    simp only [chunkRepoPred, Option.isNone_some, Bool.false_or, beq_iff_eq,
      Option.some.injEq] at hpred
    exact ⟨c, hcc, hpred, rfl⟩
  · intro rid r hr
    rcases mem_take_sort_map hr with ⟨f, hf, rfl⟩
    rcases List.mem_filter.mp hf with ⟨hff, hpred⟩
    simp only [summaryRepoPred, Option.isNone_some, Bool.false_or, beq_iff_eq,
      Option.some.injEq] at hpred
    exact ⟨f, hff, hpred, rfl⟩
  · unfold hybrid_search_chunks
    rw [List.filter_eq_self.mpr (fun c _ => by simp [chunkRepoPred])]
  · unfold hybrid_search_file_summaries
    rw [List.filter_eq_self.mpr (fun f _ => by simp [summaryRepoPred])]
  · norm_num [hybrid_search_chunks, sortByKeyDesc, insertByKeyDesc, chunkRepoPred,
      chunkCombinedScore, hybridChunkRowOf, simNoOverlap, cosDistUnit, dotp, unitVec,
      chunkA, chunkC, defaultKeywordWeight, defaultVectorWeight]

/-- Witness for C10 at a concrete input with a non-null repository
identifier. -/
theorem C10_repo_scope_witness :
    ∃ c ∈ [chunkA], c.repository_id = 10 ∧
      hybridChunkRowOf cosDistUnit simNoOverlap (unitVec 1) "" defaultKeywordWeight
          defaultVectorWeight chunkA
        = hybridChunkRowOf cosDistUnit simNoOverlap (unitVec 1) "" defaultKeywordWeight
            defaultVectorWeight c :=
  (C10_repo_scope cosDistUnit simNoOverlap [chunkA] [] (unitVec 1) ""
    defaultKeywordWeight defaultVectorWeight 20).1 10 _ (List.Mem.head _)

end RepoGPT
